import Mathlib

/-!
Shallow embedding of the gorcon/steamweb client library (Go) and proofs
about it.  Pure functions of the Go source are translated into Lean
functions; the HTTP layer is modelled by passing the transport outcome
(the result of `http.Client.Do`) and the JSON decoder as explicit
function arguments.  Go `int` and `time.Duration` are modelled as `Int`
(durations in nanoseconds), Go strings as `String`, Go slices as `List`,
and a Go `map[string]bool` used as a set is modelled as the list of keys
inserted into it (membership is what the code observes).
-/

/-- Model of Go `strings.Contains` on rune lists: `needle.isPrefixOf`
tested at every suffix of the haystack. -/
def listHasInfix (needle : List Char) : List Char → Bool
  | [] => needle.isEmpty
  | c :: rest => needle.isPrefixOf (c :: rest) || listHasInfix needle rest

/-- Go `strings.Contains s sub`. -/
def strContainsSub (s sub : String) : Bool :=
  listHasInfix sub.toList s.toList

/-- Error values of the library.  `requiredParam` models
`fmt.Errorf("%w: %s", ErrRequiredParam, name)`, `wrongStatusCode` models
`fmt.Errorf("%w: %d %s", ErrWrongStatusCode, code, status)`,
`emptyResponse` models `ErrEmptyResponse`, and `other` models any error
value propagated verbatim from the Go standard library (transport
errors, body-read errors, JSON decode errors). -/
inductive SWError where
  | requiredParam (param : String)
  | wrongStatusCode (code : Nat) (status : String)
  | emptyResponse
  | other (msg : String)
deriving DecidableEq

/-- Server record decoded from the `GetServerList` response
(`src/unnamed/part_001`, type `Server`). -/
structure Server where
  Addr : String := ""
  GamePort : Int := 0
  SteamID : String := ""
  Name : String := ""
  AppID : Int := 0
  GameDir : String := ""
  Version : String := ""
  Product : String := ""
  Region : Int := 0
  Players : Int := 0
  MaxPlayers : Int := 0
  Bots : Int := 0
  Map : String := ""
  Secure : Bool := false
  Dedicated : Bool := false
  OS : String := ""
  GameType : String := ""
deriving DecidableEq, Inhabited

/-- Player ban record (`PlayerBans` in the Go source). -/
structure PlayerBans where
  SteamID : String := ""
  CommunityBanned : Bool := false
  VACBanned : Bool := false
  NumberOfVACBans : Int := 0
  DaysSinceLastBan : Int := 0
  NumberOfGameBans : Int := 0
  EconomyBan : String := ""
deriving DecidableEq, Inhabited

/-- Response shape of `GetPlayerBans`. -/
structure GetPlayerBansResponse where
  players : List PlayerBans := []
deriving DecidableEq, Inhabited

/-- Inner object of the `GetServerList` response. -/
structure GetServerListInner where
  servers : List Server := []
deriving DecidableEq, Inhabited

/-- Response shape of `GetServerList` (`{ "response": { "servers": [...] } }`). -/
structure GetServerListResponse where
  response : GetServerListInner := {}
deriving DecidableEq, Inhabited

/-- The filter record `GetServerListFilter` of `src/unnamed/part_000`,
with Go zero values as Lean defaults. -/
structure GetServerListFilter where
  NotOr : List String := []
  NotAnd : List String := []
  Dedicated : Bool := false
  Secure : Bool := false
  GameDir : String := ""
  Map : String := ""
  Linux : Bool := false
  NoPassword : Bool := false
  NotEmpty : Bool := false
  NotFull : Bool := false
  Proxy : Bool := false
  AppID : Int := 0
  NotAppID : Int := 0
  NoPlayers : Bool := false
  Whitelisted : Bool := false
  GameTypeTags : List String := []
  GameDataTags : List String := []
  GameDataOrTags : List String := []
  NameMatch : String := ""
  VersionMatch : String := ""
  CollapseAddrHash : Bool := false
  GameAddr : String := ""
  NoHidden : Bool := false
  NoDefaultServers : Bool := false
  Limit : Int := 0
deriving DecidableEq, Inhabited

/-- Translation of the Go method `(g *GetServerListFilter) String()`
(`src/unnamed/part_000`, lines 100-175): sequential conditional appends
to `query`, starting from the mandatory `\appid\<AppID>` segment. -/
def GetServerListFilter.toQueryString (g : GetServerListFilter) : String :=
  let query := "\\appid\\" ++ toString g.AppID
  let query := if g.Dedicated then query ++ "\\dedicated\\1" else query
  let query := if g.Secure then query ++ "\\secure\\1" else query
  let query := if g.GameDir ≠ "" then query ++ ("\\gamedir\\" ++ g.GameDir) else query
  let query := if g.Map ≠ "" then query ++ ("\\map\\" ++ g.Map) else query
  let query := if g.Linux then query ++ "\\linux\\1" else query
  let query := if g.NoPassword then query ++ "\\password\\0" else query
  let query := if g.NotEmpty then query ++ "\\empty\\1" else query
  let query := if g.NotFull then query ++ "\\full\\1" else query
  let query := if g.Proxy then query ++ "\\proxy\\1" else query
  let query := if g.NotAppID ≠ 0 then query ++ ("\\napp\\" ++ toString g.NotAppID) else query
  let query := if g.NoPlayers then query ++ "\\noplayers\\1" else query
  let query := if g.Whitelisted then query ++ "\\white\\1" else query
  let query := if g.GameTypeTags.length ≠ 0 then
    query ++ ("\\gametype\\" ++ String.intercalate ";" g.GameTypeTags) else query
  let query := if g.GameDataTags.length ≠ 0 then
    query ++ ("\\gamedata\\" ++ String.intercalate "," g.GameDataTags) else query
  let query := if g.GameDataOrTags.length ≠ 0 then
    query ++ ("\\gamedataor\\" ++ String.intercalate "," g.GameDataOrTags) else query
  let query := if g.NameMatch ≠ "" then
    query ++ ("\\name_match\\*" ++ (g.NameMatch ++ "*")) else query
  query

/-- Translation of `(g *GetServerListFilter) Validate()`: Go returns an
error or nil, modelled as `Option SWError`. -/
def GetServerListFilter.Validate (g : GetServerListFilter) : Option SWError :=
  if g.AppID = 0 then some (SWError.requiredParam "appid") else none

/-- Spec-side rendering of one `\key\value` segment of the filter
micro-format. -/
def keyVal (key val : String) : String :=
  "\\" ++ key ++ "\\" ++ val

/-- Spec-side segment for a boolean field: `\key\1` only when true. -/
def boolSeg (b : Bool) (key : String) : String :=
  if b then keyVal key "1" else ""

/-- Spec-side segment for a string field: `\key\value` only when non-empty. -/
def strSeg (s key : String) : String :=
  if s ≠ "" then keyVal key s else ""

/-- Spec-side segment for a list field with its documented separator. -/
def listSeg (l : List String) (key sep : String) : String :=
  if l.length ≠ 0 then keyVal key (String.intercalate sep l) else ""

/-- Spec-side encoding of a filter, written as the claim states it: the
mandatory `\appid\<AppID>` segment followed, in the fixed upstream
order, by one segment per set field among the sixteen fields the
encoder supports.  `NoPassword` emits `\password\0`; `NameMatch` is
wrapped in `*` wildcards; `GameTypeTags` uses `;`, `GameDataTags` and
`GameDataOrTags` use `,`.  The synthetic fields `NoHidden` and
`NoDefaultServers`, the `Limit` field, and the upstream fields `NotOr`,
`NotAnd`, `VersionMatch`, `CollapseAddrHash` and `GameAddr` contribute
nothing. -/
def specQuery (g : GetServerListFilter) : String :=
  keyVal "appid" (toString g.AppID)
    ++ boolSeg g.Dedicated "dedicated"
    ++ boolSeg g.Secure "secure"
    ++ strSeg g.GameDir "gamedir"
    ++ strSeg g.Map "map"
    ++ boolSeg g.Linux "linux"
    ++ (if g.NoPassword then keyVal "password" "0" else "")
    ++ boolSeg g.NotEmpty "empty"
    ++ boolSeg g.NotFull "full"
    ++ boolSeg g.Proxy "proxy"
    ++ (if g.NotAppID ≠ 0 then keyVal "napp" (toString g.NotAppID) else "")
    ++ boolSeg g.NoPlayers "noplayers"
    ++ boolSeg g.Whitelisted "white"
    ++ listSeg g.GameTypeTags "gametype" ";"
    ++ listSeg g.GameDataTags "gamedata" ","
    ++ listSeg g.GameDataOrTags "gamedataor" ","
    ++ (if g.NameMatch ≠ "" then keyVal "name_match" ("*" ++ (g.NameMatch ++ "*")) else "")

/-- Everything the encoder appends after the mandatory segment. -/
def specQueryTail (g : GetServerListFilter) : String :=
  boolSeg g.Dedicated "dedicated"
    ++ boolSeg g.Secure "secure"
    ++ strSeg g.GameDir "gamedir"
    ++ strSeg g.Map "map"
    ++ boolSeg g.Linux "linux"
    ++ (if g.NoPassword then keyVal "password" "0" else "")
    ++ boolSeg g.NotEmpty "empty"
    ++ boolSeg g.NotFull "full"
    ++ boolSeg g.Proxy "proxy"
    ++ (if g.NotAppID ≠ 0 then keyVal "napp" (toString g.NotAppID) else "")
    ++ boolSeg g.NoPlayers "noplayers"
    ++ boolSeg g.Whitelisted "white"
    ++ listSeg g.GameTypeTags "gametype" ";"
    ++ listSeg g.GameDataTags "gamedata" ","
    ++ listSeg g.GameDataOrTags "gamedataor" ","
    ++ (if g.NameMatch ≠ "" then keyVal "name_match" ("*" ++ (g.NameMatch ++ "*")) else "")

theorem ite_app_factor (c : Prop) [Decidable c] (q s : String) :
    (if c then q ++ s else q) = q ++ (if c then s else "") := by
  split <;> simp [String.append_empty]

theorem toQueryString_eq_specQuery (g : GetServerListFilter) :
    g.toQueryString = specQuery g := by
  unfold GetServerListFilter.toQueryString specQuery
  simp only [ite_app_factor]
  rfl

theorem specQuery_head_tail (g : GetServerListFilter) :
    specQuery g = keyVal "appid" (toString g.AppID) ++ specQueryTail g := by
  unfold specQuery specQueryTail
  simp only [String.append_assoc]

/-! ### Go `sort.Slice`

`Client.filterServers` sorts via Go's `sort.Slice`, whose documentation
states "The sort is not guaranteed to be stable."  The functions below
are a translation of the pattern-defeating quicksort implementation
behind `sort.Slice` in the Go standard library (`sort/zsortfunc.go`,
Go 1.19 through 1.23): ranges of at most 12 elements are handled by a
(stable) insertion sort, larger ranges by an (unstable) quicksort
partition with a heapsort fallback.  The slice is modelled as a
`List α`, `data.Less i j` as `lt (get i) (get j)`, and `data.Swap` as
element swapping by index; loops carry explicit termination fuel that is
always sufficient for the concrete inputs evaluated below. -/

/-- Element read, Go `data[i]` (never out of range on the paths taken). -/
def lget [Inhabited α] (xs : List α) (i : Nat) : α :=
  xs.getD i default

/-- Go `data.Swap(i, j)`. -/
def lswap [Inhabited α] (xs : List α) (i j : Nat) : List α :=
  let xi := lget xs i
  let xj := lget xs j
  (xs.set i xj).set j xi

/-- Go `bits.Len(uint(n))`, via fuel-based halving. -/
def bitsLenAux : Nat → Nat → Nat
  | 0, _ => 0
  | fuel + 1, n => if n = 0 then 0 else bitsLenAux fuel (n / 2) + 1

/-- Number of bits of `n`. -/
def bitsLen (n : Nat) : Nat :=
  bitsLenAux (n + 1) n

/-- Inner loop of Go `insertionSort_func`: shift `data[j]` left while it
is less than its predecessor and `j > a`. -/
def insInner [Inhabited α] (lt : α → α → Bool) (a : Nat) : List α → Nat → List α
  | xs, 0 => xs
  | xs, j + 1 =>
    if j + 1 > a && lt (lget xs (j + 1)) (lget xs j) then
      insInner lt a (lswap xs (j + 1) j) j
    else xs

/-- Outer loop of Go `insertionSort_func` over `i = a+1, …, b-1`. -/
def insOuter [Inhabited α] (lt : α → α → Bool) (a b : Nat) : List α → Nat → Nat → List α
  | xs, _, 0 => xs
  | xs, i, fuel + 1 =>
    if i < b then insOuter lt a b (insInner lt a xs i) (i + 1) fuel else xs

/-- Go `insertionSort_func(data, a, b)`. -/
def insertionSortGo [Inhabited α] (lt : α → α → Bool) (xs : List α) (a b : Nat) : List α :=
  insOuter lt a b xs (a + 1) (b + 1)

/-- Loop of Go `siftDown_func`. -/
def siftDownAux [Inhabited α] (lt : α → α → Bool) (first hi : Nat) :
    List α → Nat → Nat → List α
  | xs, _, 0 => xs
  | xs, root, fuel + 1 =>
    let child := 2 * root + 1
    if child ≥ hi then xs
    else
      let child := if child + 1 < hi && lt (lget xs (first + child)) (lget xs (first + child + 1))
        then child + 1 else child
      if !lt (lget xs (first + root)) (lget xs (first + child)) then xs
      else siftDownAux lt first hi (lswap xs (first + root) (first + child)) child fuel

/-- Go `siftDown_func(data, lo, hi, first)`. -/
def siftDownGo [Inhabited α] (lt : α → α → Bool) (xs : List α) (lo hi first : Nat) : List α :=
  siftDownAux lt first hi xs lo (hi + 1)

/-- Heap-building loop of Go `heapSort_func`, `i = (hi-1)/2, …, 0`. -/
def heapBuild [Inhabited α] (lt : α → α → Bool) (first hi : Nat) : List α → Nat → List α
  | xs, 0 => xs
  | xs, k + 1 => heapBuild lt first hi (siftDownGo lt xs k hi first) k

/-- Pop loop of Go `heapSort_func`, `i = hi-1, …, 0`. -/
def heapPop [Inhabited α] (lt : α → α → Bool) (first : Nat) : List α → Nat → List α
  | xs, 0 => xs
  | xs, i + 1 => heapPop lt first (siftDownGo lt (lswap xs first (first + i)) 0 i first) i

/-- Go `heapSort_func(data, a, b)`. -/
def heapSortGo [Inhabited α] (lt : α → α → Bool) (xs : List α) (a b : Nat) : List α :=
  let hi := b - a
  heapPop lt a (heapBuild lt a hi xs ((hi - 1) / 2 + 1)) hi

/-- Loop of Go `reverseRange_func`. -/
def revAux [Inhabited α] : List α → Nat → Nat → Nat → List α
  | xs, _, _, 0 => xs
  | xs, i, j, fuel + 1 => if i < j then revAux (lswap xs i j) (i + 1) (j - 1) fuel else xs

/-- Go `reverseRange_func(data, a, b)`. -/
def reverseRangeGo [Inhabited α] (xs : List α) (a b : Nat) : List α :=
  revAux xs a (b - 1) b

/-- Go `order2_func`: order two indices, counting a swap when they are
out of order. -/
def order2Go [Inhabited α] (lt : α → α → Bool) (xs : List α) (a b swaps : Nat) :
    Nat × Nat × Nat :=
  if lt (lget xs b) (lget xs a) then (b, a, swaps + 1) else (a, b, swaps)

/-- Go `median_func`: index of the median of three elements. -/
def medianGo [Inhabited α] (lt : α → α → Bool) (xs : List α) (a b c swaps : Nat) :
    Nat × Nat :=
  let p1 := order2Go lt xs a b swaps
  let p2 := order2Go lt xs p1.2.1 c p1.2.2
  let p3 := order2Go lt xs p1.1 p2.1 p2.2.2
  (p3.2.1, p3.2.2)

/-- Go `medianAdjacent_func`. -/
def medianAdjacentGo [Inhabited α] (lt : α → α → Bool) (xs : List α) (a swaps : Nat) :
    Nat × Nat :=
  medianGo lt xs (a - 1) a (a + 1) swaps

/-- Go `choosePivot_func`: returns the pivot index and a sortedness hint
(0 unknown, 1 increasing, 2 decreasing). -/
def choosePivotGo [Inhabited α] (lt : α → α → Bool) (xs : List α) (a b : Nat) : Nat × Nat :=
  let l := b - a
  let i := a + l / 4 * 1
  let j := a + l / 4 * 2
  let k := a + l / 4 * 3
  if l ≥ 8 then
    let tup :=
      if l ≥ 50 then
        let p1 := medianAdjacentGo lt xs i 0
        let p2 := medianAdjacentGo lt xs j p1.2
        let p3 := medianAdjacentGo lt xs k p2.2
        (p1.1, p2.1, p3.1, p3.2)
      else (i, j, k, 0)
    let med := medianGo lt xs tup.1 tup.2.1 tup.2.2.1 tup.2.2.2
    if med.2 = 0 then (med.1, 1)
    else if med.2 = 12 then (med.1, 2)
    else (med.1, 0)
  else (j, 1)

/-- Scan loop of Go `partialInsertionSort_func`: advance `i` while the
element is not less than its predecessor. -/
def pisScan [Inhabited α] (lt : α → α → Bool) (b : Nat) : List α → Nat → Nat → Nat
  | _, i, 0 => i
  | xs, i, fuel + 1 =>
    if i < b && !lt (lget xs i) (lget xs (i - 1)) then pisScan lt b xs (i + 1) fuel else i

/-- Left-shifting loop of Go `partialInsertionSort_func`, `j = i-1, …, 1`. -/
def pisShiftLeft [Inhabited α] (lt : α → α → Bool) : List α → Nat → List α
  | xs, 0 => xs
  | xs, jj + 1 =>
    if !lt (lget xs (jj + 1)) (lget xs jj) then xs
    else pisShiftLeft lt (lswap xs (jj + 1) jj) jj

/-- Right-shifting loop of Go `partialInsertionSort_func`, `j = i+1, …, b-1`. -/
def pisShiftRight [Inhabited α] (lt : α → α → Bool) (b : Nat) : List α → Nat → Nat → List α
  | xs, _, 0 => xs
  | xs, j, fuel + 1 =>
    if j < b then
      if !lt (lget xs j) (lget xs (j - 1)) then xs
      else pisShiftRight lt b (lswap xs j (j - 1)) (j + 1) fuel
    else xs

/-- Outer loop of Go `partialInsertionSort_func` (at most `maxSteps = 5`
adjacent out-of-order pairs are shifted; arrays shorter than 50 are
never shifted).  Returns the data and whether the range is sorted. -/
def pisLoop [Inhabited α] (lt : α → α → Bool) (a b : Nat) :
    List α → Nat → Nat → List α × Bool
  | xs, _, 0 => (xs, false)
  | xs, i, steps + 1 =>
    let i := pisScan lt b xs i (b + 1)
    if i = b then (xs, true)
    else if b - a < 50 then (xs, false)
    else
      let xs := lswap xs i (i - 1)
      let xs := if i - a ≥ 2 then pisShiftLeft lt xs (i - 1) else xs
      let xs := if b - i ≥ 2 then pisShiftRight lt b xs (i + 1) (b + 1) else xs
      pisLoop lt a b xs i steps

/-- Go `partialInsertionSort_func(data, a, b)`. -/
def partInsSortGo [Inhabited α] (lt : α → α → Bool) (xs : List α) (a b : Nat) :
    List α × Bool :=
  pisLoop lt a b xs (a + 1) 5

/-- One step of the Go `xorshift` pseudo-random generator (`uint64`). -/
def xorshiftNext (r : Nat) : Nat :=
  let m := 2 ^ 64
  let r := (r ^^^ (r <<< 13)) % m
  let r := (r ^^^ (r >>> 7)) % m
  (r ^^^ (r <<< 17)) % m

/-- Go `nextPowerOfTwo(length)`. -/
def nextPowerOfTwo (length : Nat) : Nat :=
  2 ^ bitsLen length

/-- Go `breakPatterns_func(data, a, b)`: swap three elements around the
middle with pseudo-random partners (xorshift seeded with the length). -/
def breakPatternsGo [Inhabited α] (xs : List α) (a b : Nat) : List α :=
  let length := b - a
  if length ≥ 8 then
    let modulus := nextPowerOfTwo length
    let idx := a + length / 4 * 2 - 1
    let r1 := xorshiftNext length
    let o1 := let o := r1 % modulus; if o ≥ length then o - length else o
    let xs := lswap xs (idx - 1) (a + o1)
    let r2 := xorshiftNext r1
    let o2 := let o := r2 % modulus; if o ≥ length then o - length else o
    let xs := lswap xs idx (a + o2)
    let r3 := xorshiftNext r2
    let o3 := let o := r3 % modulus; if o ≥ length then o - length else o
    lswap xs (idx + 1) (a + o3)
  else xs

/-- Scan of Go `partition_func`: advance `i` while `data[i] < data[a]`. -/
def partScanL [Inhabited α] (lt : α → α → Bool) (xs : List α) (a : Nat) :
    Nat → Nat → Nat → Nat
  | i, _, 0 => i
  | i, j, fuel + 1 =>
    if i ≤ j && lt (lget xs i) (lget xs a) then partScanL lt xs a (i + 1) j fuel else i

/-- Scan of Go `partition_func`: retreat `j` while `data[j] ≥ data[a]`. -/
def partScanR [Inhabited α] (lt : α → α → Bool) (xs : List α) (a : Nat) :
    Nat → Nat → Nat → Nat
  | _, j, 0 => j
  | i, j, fuel + 1 =>
    if i ≤ j && !lt (lget xs j) (lget xs a) then partScanR lt xs a i (j - 1) fuel else j

/-- Main swap loop of Go `partition_func`; returns the data and the
final `j`. -/
def partLoop [Inhabited α] (lt : α → α → Bool) (a b : Nat) :
    List α → Nat → Nat → Nat → List α × Nat
  | xs, _, j, 0 => (xs, j)
  | xs, i, j, fuel + 1 =>
    let i := partScanL lt xs a i j (b + 1)
    let j := partScanR lt xs a i j (b + 1)
    if i > j then (xs, j)
    else partLoop lt a b (lswap xs i j) (i + 1) (j - 1) fuel

/-- Go `partition_func(data, a, b, pivot)`: returns data, the new pivot
position and whether the range was already partitioned. -/
def partitionGo [Inhabited α] (lt : α → α → Bool) (xs : List α) (a b pivot : Nat) :
    List α × Nat × Bool :=
  let xs := lswap xs a pivot
  let i := partScanL lt xs a (a + 1) (b - 1) (b + 1)
  let j := partScanR lt xs a i (b - 1) (b + 1)
  if i > j then (lswap xs j a, j, true)
  else
    let p := partLoop lt a b (lswap xs i j) (i + 1) (j - 1) (b + 1)
    (lswap p.1 p.2 a, p.2, false)

/-- Scan of Go `partitionEqual_func`: advance `i` while
`data[i] ≤ data[a]` (that is, not `data[a] < data[i]`). -/
def partEqScanL [Inhabited α] (lt : α → α → Bool) (xs : List α) (a : Nat) :
    Nat → Nat → Nat → Nat
  | i, _, 0 => i
  | i, j, fuel + 1 =>
    if i ≤ j && !lt (lget xs a) (lget xs i) then partEqScanL lt xs a (i + 1) j fuel else i

/-- Scan of Go `partitionEqual_func`: retreat `j` while `data[a] < data[j]`. -/
def partEqScanR [Inhabited α] (lt : α → α → Bool) (xs : List α) (a : Nat) :
    Nat → Nat → Nat → Nat
  | _, j, 0 => j
  | i, j, fuel + 1 =>
    if i ≤ j && lt (lget xs a) (lget xs j) then partEqScanR lt xs a i (j - 1) fuel else j

/-- Swap loop of Go `partitionEqual_func`; returns the data and the
final `i`. -/
def partEqLoop [Inhabited α] (lt : α → α → Bool) (a b : Nat) :
    List α → Nat → Nat → Nat → List α × Nat
  | xs, i, _, 0 => (xs, i)
  | xs, i, j, fuel + 1 =>
    let i := partEqScanL lt xs a i j (b + 1)
    let j := partEqScanR lt xs a i j (b + 1)
    if i > j then (xs, i)
    else partEqLoop lt a b (lswap xs i j) (i + 1) (j - 1) fuel

/-- Go `partitionEqual_func(data, a, b, pivot)`. -/
def partitionEqualGo [Inhabited α] (lt : α → α → Bool) (xs : List α) (a b pivot : Nat) :
    List α × Nat :=
  partEqLoop lt a b (lswap xs a pivot) (a + 1) (b - 1) (b + 1)

/-- Translation of Go `pdqsort_func(data, a, b, limit)`.  The Go outer
`for` loop and the recursive calls are both rendered as recursion; the
loop continuation keeps the updated `wasBalanced` / `wasPartitioned` /
`limit` while recursive calls restart them at `true` / `true` as in the
Go source (they are local variables initialised at entry).  `fuel`
bounds the total number of steps and is always sufficient for the
concrete inputs evaluated below. -/
def pdqsortGo [Inhabited α] (lt : α → α → Bool) :
    List α → Nat → Nat → Nat → Bool → Bool → Nat → List α
  | xs, _, _, _, _, _, 0 => xs
  | xs, a, b, limit, wasBalanced, wasPartitioned, fuel + 1 =>
    let length := b - a
    if length ≤ 12 then insertionSortGo lt xs a b
    else if limit = 0 then heapSortGo lt xs a b
    else
      let xs := if !wasBalanced then breakPatternsGo xs a b else xs
      let limit := if !wasBalanced then limit - 1 else limit
      let pv := choosePivotGo lt xs a b
      let xs := if pv.2 = 2 then reverseRangeGo xs a b else xs
      let pivot := if pv.2 = 2 then (b - 1) - (pv.1 - a) else pv.1
      let hint := if pv.2 = 2 then 1 else pv.2
      let pis :=
        if wasBalanced && wasPartitioned && hint = 1 then partInsSortGo lt xs a b
        else (xs, false)
      if pis.2 then pis.1
      else
        let xs := pis.1
        if a > 0 && !lt (lget xs (a - 1)) (lget xs pivot) then
          let pe := partitionEqualGo lt xs a b pivot
          pdqsortGo lt pe.1 pe.2 b limit wasBalanced wasPartitioned fuel
        else
          let pt := partitionGo lt xs a b pivot
          let xs := pt.1
          let mid := pt.2.1
          let alreadyPartitioned := pt.2.2
          let leftLen := mid - a
          let rightLen := b - mid
          let balanceThreshold := length / 8
          let wasBalanced := min leftLen rightLen ≥ balanceThreshold
          if leftLen < rightLen then
            let xs := pdqsortGo lt xs a mid limit true true fuel
            pdqsortGo lt xs (mid + 1) b limit wasBalanced alreadyPartitioned fuel
          else
            let xs := pdqsortGo lt xs (mid + 1) b limit true true fuel
            pdqsortGo lt xs a mid limit wasBalanced alreadyPartitioned fuel

/-- Go `sort.Slice(x, less)`: `pdqsort_func(lessSwap, 0, n, bits.Len(uint(n)))`. -/
def sortSliceGo [Inhabited α] (lt : α → α → Bool) (xs : List α) : List α :=
  pdqsortGo lt xs 0 xs.length (bitsLen xs.length) true true
    ((xs.length + 2) * (xs.length + 2))

/-! ### Configuration (`src/steamwebdraft/config.go`) -/

/-- Go `DefaultSteamURL`. -/
def DefaultSteamURL : String := "https://api.steampowered.com"

/-- Go `DefaultTimeout = 10 * time.Second`, in nanoseconds. -/
def DefaultTimeout : Int := 10000000000

/-- Go `DefaultTLSHandshakeTimeout = 5 * time.Second`, in nanoseconds. -/
def DefaultTLSHandshakeTimeout : Int := 5000000000

/-- Go `DefaultDialerTimeout = 5 * time.Second`, in nanoseconds. -/
def DefaultDialerTimeout : Int := 5000000000

/-- Go `DefaultLimit = 50000`. -/
def DefaultLimit : Int := 50000

/-- Go `Dialer` configuration; durations in nanoseconds, the
`time.Time` deadline modelled as an abstract instant with zero value `0`. -/
structure Dialer where
  Timeout : Int := 0
  Deadline : Int := 0
  FallbackDelay : Int := 0
  KeepAlive : Int := 0
deriving DecidableEq, Inhabited

/-- The anonymous `Transport` struct of Go `Config`. -/
structure TransportConfig where
  Dialer : Dialer := {}
  TLSHandshakeTimeout : Int := 0
deriving DecidableEq, Inhabited

/-- Go `Config`, with Go zero values as Lean defaults. -/
structure Config where
  Disabled : Bool := false
  Key : String := ""
  URL : String := ""
  Timeout : Int := 0
  Transport : TransportConfig := {}
  Limit : Int := 0
  DefaultServerNames : List String := []
deriving DecidableEq, Inhabited

/-- Translation of `(cfg *Config) SetDefaults()` (`config.go`, lines
105-125): five sequential conditional assignments, each firing only
when the field still holds its zero value.  Go mutates in place; the
model returns the updated record. -/
def Config.SetDefaults (cfg : Config) : Config :=
  let cfg := if cfg.URL = "" then { cfg with URL := DefaultSteamURL } else cfg
  let cfg := if cfg.Timeout = 0 then { cfg with Timeout := DefaultTimeout } else cfg
  let cfg := if cfg.Transport.TLSHandshakeTimeout = 0 then
    { cfg with Transport.TLSHandshakeTimeout := DefaultTLSHandshakeTimeout } else cfg
  let cfg := if cfg.Transport.Dialer.Timeout = 0 then
    { cfg with Transport.Dialer.Timeout := DefaultDialerTimeout } else cfg
  if cfg.Limit = 0 then { cfg with Limit := DefaultLimit } else cfg

/-- The client: `NewClient` stores the defaulted configuration (the
`http.Client` it also builds carries no further state observed by the
claims). -/
structure Client where
  config : Config
deriving DecidableEq, Inhabited

/-- Translation of `NewClient(cfg *Config)`: applies `SetDefaults` once
at construction. -/
def NewClient (cfg : Config) : Client :=
  ⟨cfg.SetDefaults⟩

/-! ### Post-fetch custom filter and sort (`Client.filterServers`) -/

/-- The comparison used by `sort.Slice` in `filterServers`:
`servers[i].Players > servers[j].Players`. -/
def serverLt (x y : Server) : Bool :=
  decide (x.Players > y.Players)

/-- The exclusion-set construction of `Client.filterServers`
(`src/unnamed/part_001`, lines 136-156): one pass over the servers; a
server whose gametype contains "hidden" (when `NoHidden`) adds its
address and skips the name check; otherwise, when `NoDefaultServers`,
an inner loop over the configured default names adds the address on
every exact name match (the inner `continue` continues the name loop,
so there is no early exit).  The Go `map[string]bool` is modelled as
the list of inserted keys. -/
def removeStep (cfg : Config) (f : GetServerListFilter) (acc : List String) (s : Server) :
    List String :=
  if f.NoHidden && strContainsSub s.GameType "hidden" then acc ++ [s.Addr]
  else if f.NoDefaultServers then
    cfg.DefaultServerNames.foldl
      (fun acc2 n => if s.Name == n then acc2 ++ [s.Addr] else acc2) acc
  else acc

/-- The whole exclusion-set pass: fold `removeStep` over the servers. -/
def buildRemoveAddrs (cfg : Config) (f : GetServerListFilter) (servers : List Server) :
    List String :=
  servers.foldl (removeStep cfg f) []

/-- Translation of `Client.removeFilteredServers` (lines 168-178): keep,
in order, the servers whose address is not in the set. -/
def removeFilteredServers (servers : List Server) (addrs : List String) : List Server :=
  servers.foldl (fun res s => if addrs.contains s.Addr then res else res ++ [s]) []

/-- The conditional custom-filter pass of `Client.filterServers` (lines
135-159), before the sort. -/
def customFilterStep (cfg : Config) (servers : List Server) (f : GetServerListFilter) :
    List Server :=
  if f.NoHidden || f.NoDefaultServers then
    removeFilteredServers servers (buildRemoveAddrs cfg f servers)
  else servers

/-- Translation of `Client.filterServers` (lines 134-166): the custom
filter pass followed by `sort.Slice` on descending player count. -/
def Client.filterServers (c : Client) (servers : List Server) (f : GetServerListFilter) :
    List Server :=
  sortSliceGo serverLt (customFilterStep c.config servers f)

/-! ### HTTP layer (`Client.sendRequest`, `Client.GetPlayerBans`,
`Client.GetServerList`)

The outcome of `http.Client.Do` is modelled by `DoRes` (an optional
response plus an optional transport error); the transport itself is a
function from the request URL to a `DoRes`, and `json.Unmarshal` is a
function from the body to a decoded response or an error — both passed
as explicit arguments, so a theorem quantified over them holds for
every possible network behaviour. -/

deriving instance DecidableEq for Except

/-- An HTTP response as observed by `sendRequest`: status code, status
text, and the outcome of `io.ReadAll(res.Body)`. -/
structure HTTPRes where
  StatusCode : Nat := 0
  Status : String := ""
  Body : Except String String := Except.ok ""
deriving DecidableEq, Inhabited

/-- The pair returned by `http.Client.Do`. -/
structure DoRes where
  res : Option HTTPRes := none
  err : Option String := none
deriving DecidableEq, Inhabited

/-- Translation of `Client.sendRequest` (`src/unnamed/part_001`, lines
105-132) from the `Do` call onward: a `Do` error propagates verbatim; a
nil response is `ErrEmptyResponse`; a status other than
`http.StatusOK` (200) is `ErrWrongStatusCode` carrying code and status
text; a body-read error propagates; otherwise the body is returned. -/
def sendRequest (d : DoRes) : Except SWError String :=
  match d.err with
  | some e => Except.error (SWError.other e)
  | none =>
    match d.res with
    | none => Except.error SWError.emptyResponse
    | some r =>
      if r.StatusCode ≠ 200 then Except.error (SWError.wrongStatusCode r.StatusCode r.Status)
      else
        match r.Body with
        | Except.error e => Except.error (SWError.other e)
        | Except.ok b => Except.ok b

/-- The Go template `GetPlayerBansURL` after `fmt.Sprintf`. -/
def getPlayerBansPath (key ids : String) : String :=
  "/ISteamUser/GetPlayerBans/v1?key=" ++ key ++ "&steamids=" ++ ids

/-- The Go template `GetServerListURL` after `fmt.Sprintf`. -/
def getServerListPath (key : String) (limit : Int) (filterStr : String) : String :=
  "/IGameServersService/GetServerList/v1?key=" ++ key ++ "&limit=" ++ toString limit
    ++ "&filter=" ++ filterStr

/-- Translation of `Client.GetPlayerBans` (lines 54-74). -/
def Client.GetPlayerBans (c : Client) (steamIDs : List String) (tr : String → DoRes)
    (um : String → Except String GetPlayerBansResponse) : Except SWError (List PlayerBans) :=
  if c.config.Disabled then Except.ok []
  else
    let uri := c.config.URL ++ getPlayerBansPath c.config.Key (String.intercalate "," steamIDs)
    match sendRequest (tr uri) with
    | Except.error e => Except.error e
    | Except.ok body =>
      match um body with
      | Except.error e => Except.error (SWError.other e)
      | Except.ok resp => Except.ok resp.players

/-- Translation of `Client.GetServerList` (lines 78-103): disabled
short-circuit, effective limit, URL construction, request, decode,
post-fetch filter and sort.  No filter validation occurs. -/
def Client.GetServerList (c : Client) (filter : GetServerListFilter) (tr : String → DoRes)
    (um : String → Except String GetServerListResponse) : Except SWError (List Server) :=
  if c.config.Disabled then Except.ok []
  else
    let limit := if filter.Limit = 0 then DefaultLimit else filter.Limit
    let uri := c.config.URL ++ getServerListPath c.config.Key limit filter.toQueryString
    match sendRequest (tr uri) with
    | Except.error e => Except.error e
    | Except.ok body =>
      match um body with
      | Except.error e => Except.error (SWError.other e)
      | Except.ok resp => Except.ok (c.filterServers resp.response.servers filter)

/-- Spec-side effective result limit: the filter's own limit if
non-zero, otherwise the library default. -/
def effectiveLimit (f : GetServerListFilter) : Int :=
  if f.Limit = 0 then DefaultLimit else f.Limit

/-- Spec-side request URL of `GetServerList`. -/
def serverListURI (cfg : Config) (f : GetServerListFilter) : String :=
  cfg.URL ++ getServerListPath cfg.Key (effectiveLimit f) f.toQueryString

/-- The pipeline `GetServerList` applies to the transport outcome:
`sendRequest`, then decode, then the post-fetch filter and sort. -/
def serverListProcess (c : Client) (f : GetServerListFilter) (d : DoRes)
    (um : String → Except String GetServerListResponse) : Except SWError (List Server) :=
  match sendRequest d with
  | Except.error e => Except.error e
  | Except.ok body =>
    match um body with
    | Except.error e => Except.error (SWError.other e)
    | Except.ok resp => Except.ok (c.filterServers resp.response.servers f)

theorem GetServerList_enabled (c : Client) (f : GetServerListFilter) (tr : String → DoRes)
    (um : String → Except String GetServerListResponse) (h : c.config.Disabled = false) :
    c.GetServerList f tr um = serverListProcess c f (tr (serverListURI c.config f)) um := by
  unfold Client.GetServerList serverListProcess serverListURI effectiveLimit
  rw [h]
  simp

/-- Spec-side characterisation of which servers contribute their address
to the exclusion set: gametype contains "hidden" (when `NoHidden`), or
the name exactly equals a configured default name (when
`NoDefaultServers`). -/
def serverMatchesCustom (cfg : Config) (f : GetServerListFilter) (s : Server) : Bool :=
  (f.NoHidden && strContainsSub s.GameType "hidden")
    || (f.NoDefaultServers && cfg.DefaultServerNames.any (fun n => s.Name == n))

theorem mem_nameFold (s : Server) (names : List String) (acc : List String) (A : String) :
    A ∈ names.foldl (fun acc2 n => if s.Name == n then acc2 ++ [s.Addr] else acc2) acc
      ↔ A ∈ acc ∨ (A = s.Addr ∧ names.any (fun n => s.Name == n) = true) := by
  induction names generalizing acc with
  | nil => simp
  | cons n rest ih =>
    rw [List.foldl_cons, ih]
    by_cases h : s.Name == n
    · simp [h]
      tauto
    · simp [h]

theorem mem_removeStep (cfg : Config) (f : GetServerListFilter) (acc : List String)
    (s : Server) (A : String) :
    A ∈ removeStep cfg f acc s
      ↔ A ∈ acc ∨ (A = s.Addr ∧ serverMatchesCustom cfg f s = true) := by
  unfold removeStep serverMatchesCustom
  by_cases h1 : (f.NoHidden && strContainsSub s.GameType "hidden") = true
  · simp [h1, List.mem_append]
  · rw [if_neg h1]
    by_cases h2 : f.NoDefaultServers = true
    · rw [if_pos h2, mem_nameFold]
      simp [h1, h2]
    · simp [h1, h2]

theorem mem_foldl_removeStep (cfg : Config) (f : GetServerListFilter)
    (servers : List Server) (acc : List String) (A : String) :
    A ∈ servers.foldl (removeStep cfg f) acc
      ↔ A ∈ acc ∨ ∃ s, s ∈ servers ∧ s.Addr = A ∧ serverMatchesCustom cfg f s = true := by
  induction servers generalizing acc with
  | nil => simp
  | cons s rest ih =>
    simp only [List.foldl_cons, ih, mem_removeStep, List.mem_cons]
    constructor
    · rintro ((h | ⟨hA, hm⟩) | ⟨t, ht, hA, hm⟩)
      · exact Or.inl h
      · exact Or.inr ⟨s, Or.inl rfl, hA.symm, hm⟩
      · exact Or.inr ⟨t, Or.inr ht, hA, hm⟩
    · rintro (h | ⟨t, hts, hA, hm⟩)
      · exact Or.inl (Or.inl h)
      · rcases hts with rfl | ht
        · exact Or.inl (Or.inr ⟨hA.symm, hm⟩)
        · exact Or.inr ⟨t, ht, hA, hm⟩

theorem mem_buildRemoveAddrs (cfg : Config) (f : GetServerListFilter)
    (servers : List Server) (A : String) :
    A ∈ buildRemoveAddrs cfg f servers
      ↔ ∃ s, s ∈ servers ∧ s.Addr = A ∧ serverMatchesCustom cfg f s = true := by
  unfold buildRemoveAddrs
  rw [mem_foldl_removeStep]
  simp

theorem contains_buildRemoveAddrs (cfg : Config) (f : GetServerListFilter)
    (servers : List Server) (A : String) :
    (buildRemoveAddrs cfg f servers).contains A
      = servers.any (fun t => (t.Addr == A) && serverMatchesCustom cfg f t) := by
  rw [Bool.eq_iff_iff]
  simp only [List.elem_iff, mem_buildRemoveAddrs, List.any_eq_true,
    Bool.and_eq_true, beq_iff_eq]

theorem foldl_keep_eq_filter (addrs : List String) (servers : List Server)
    (acc : List Server) :
    servers.foldl (fun res s => if addrs.contains s.Addr then res else res ++ [s]) acc
      = acc ++ servers.filter (fun s => !(addrs.contains s.Addr)) := by
  induction servers generalizing acc with
  | nil => simp
  | cons s rest ih =>
    rw [List.foldl_cons, ih]
    by_cases h : s.Addr ∈ addrs
    · simp [h]
    · simp [h]

theorem removeFilteredServers_eq_filter (servers : List Server) (addrs : List String) :
    removeFilteredServers servers addrs
      = servers.filter (fun s => !(addrs.contains s.Addr)) := by
  unfold removeFilteredServers
  rw [foldl_keep_eq_filter]
  simp

theorem customFilterStep_eq_filter (cfg : Config) (f : GetServerListFilter)
    (servers : List Server) (h : (f.NoHidden || f.NoDefaultServers) = true) :
    customFilterStep cfg servers f
      = servers.filter
          (fun s => !(servers.any (fun t => (t.Addr == s.Addr) && serverMatchesCustom cfg f t))) := by
  unfold customFilterStep
  rw [if_pos h, removeFilteredServers_eq_filter]
  apply List.filter_congr
  intro s _
  rw [contains_buildRemoveAddrs]

theorem customFilterStep_inactive (cfg : Config) (f : GetServerListFilter)
    (servers : List Server) (h : ¬(f.NoHidden || f.NoDefaultServers) = true) :
    customFilterStep cfg servers f = servers := by
  unfold customFilterStep
  rw [if_neg h]

/-- C3: whenever `NoHidden` or `NoDefaultServers` is active, the
post-fetch pass (before the sort) removes from the list exactly the
servers whose address is in the exclusion set — a server contributes
its address iff (`NoHidden` and its gametype contains "hidden") or
(`NoDefaultServers` and its name equals a configured default name) —
and the retained servers keep their input order, the pass being a
`List.filter`. -/
theorem C3_exclusion_set (c : Client) (f : GetServerListFilter) (servers : List Server)
    (h : (f.NoHidden || f.NoDefaultServers) = true) :
    customFilterStep c.config servers f
      = servers.filter
          (fun s => !(servers.any (fun t => (t.Addr == s.Addr) && serverMatchesCustom c.config f t))) :=
  customFilterStep_eq_filter c.config f servers h

/-- C3 witness: a hidden server is excluded and a plain server kept, at
a concrete input. -/
theorem C3_exclusion_set_witness :
    customFilterStep { DefaultServerNames := ["My PZ Server"] }
        [ { Addr := "h", GameType := "hidden;hosted", Players := 1 },
          { Addr := "p", GameType := "hosted", Players := 2 } ]
        { NoHidden := true }
      = [ { Addr := "p", GameType := "hosted", Players := 2 } ] :=
  (C3_exclusion_set
      (Client.mk { DefaultServerNames := ["My PZ Server"] })
      { NoHidden := true }
      [ { Addr := "h", GameType := "hidden;hosted", Players := 1 },
        { Addr := "p", GameType := "hosted", Players := 2 } ]
      rfl).trans (by decide)

/-- C10: exclusion is keyed by server address, not by position: when a
server matching an active synthetic filter has address `A`, every
server with address `A` is removed, and any two servers sharing an
address are kept or removed together by the custom-filter pass. -/
theorem C10_keyed_by_address (c : Client) (f : GetServerListFilter) (servers : List Server)
    (s t : Server) (hs : s ∈ servers) (ht : t ∈ servers) (haddr : s.Addr = t.Addr) :
    (serverMatchesCustom c.config f s = true → t ∉ customFilterStep c.config servers f)
    ∧ (s ∈ customFilterStep c.config servers f ↔ t ∈ customFilterStep c.config servers f) := by
  by_cases hact : (f.NoHidden || f.NoDefaultServers) = true
  · rw [customFilterStep_eq_filter c.config f servers hact]
    constructor
    · intro hm hmem
      rw [List.mem_filter] at hmem
      obtain ⟨_, hpred⟩ := hmem
      have hany : servers.any
          (fun u => (u.Addr == t.Addr) && serverMatchesCustom c.config f u) = true := by
        rw [List.any_eq_true]
        exact ⟨s, hs, by simp [haddr, hm]⟩
      simp [hany] at hpred
    · have heq : servers.any (fun v => (v.Addr == s.Addr) && serverMatchesCustom c.config f v)
          = servers.any (fun v => (v.Addr == t.Addr) && serverMatchesCustom c.config f v) := by
        rw [haddr]
      rw [List.mem_filter, List.mem_filter]
      constructor
      · rintro ⟨_, hp⟩
        refine ⟨ht, ?_⟩
        beta_reduce at hp ⊢
        rw [← heq]
        exact hp
      · rintro ⟨_, hp⟩
        refine ⟨hs, ?_⟩
        beta_reduce at hp ⊢
        rw [heq]
        exact hp
  · have hstep := customFilterStep_inactive c.config f servers hact
    have hno : f.NoHidden = false ∧ f.NoDefaultServers = false := by
      constructor <;> cases h1 : f.NoHidden <;> cases h2 : f.NoDefaultServers <;>
        simp_all
    constructor
    · intro hm
      unfold serverMatchesCustom at hm
      rw [hno.1, hno.2] at hm
      simp at hm
    · rw [hstep]
      exact iff_of_true hs ht

/-- C10 witness: two servers share an address; the first is hidden, the
second matches nothing, yet the second is also removed. -/
theorem C10_keyed_by_address_witness :
    { Addr := "dup", GameType := "", Players := 2 : Server } ∉
      customFilterStep {}
        [ { Addr := "dup", GameType := "hidden", Players := 1 },
          { Addr := "dup", GameType := "", Players := 2 } ]
        { NoHidden := true } :=
  (C10_keyed_by_address (Client.mk {}) { NoHidden := true }
      [ { Addr := "dup", GameType := "hidden", Players := 1 },
        { Addr := "dup", GameType := "", Players := 2 } ]
      { Addr := "dup", GameType := "hidden", Players := 1 }
      { Addr := "dup", GameType := "", Players := 2 }
      (by decide) (by decide) rfl).1 rfl

/-- Modelled from the spec (claim C7): the simplified variant of the
exclusion-pass loop body that breaks out of the inner default-name loop
at the first match, instead of continuing through the remaining names. -/
def removeStepBreak (cfg : Config) (f : GetServerListFilter) (acc : List String)
    (s : Server) : List String :=
  if f.NoHidden && strContainsSub s.GameType "hidden" then acc ++ [s.Addr]
  else if f.NoDefaultServers && cfg.DefaultServerNames.any (fun n => s.Name == n) then
    acc ++ [s.Addr]
  else acc

/-- Exclusion set built with the early-exit variant. -/
def buildRemoveAddrsBreak (cfg : Config) (f : GetServerListFilter)
    (servers : List Server) : List String :=
  servers.foldl (removeStepBreak cfg f) []

/-- The whole post-fetch pass built on the early-exit variant. -/
def filterServersBreak (c : Client) (servers : List Server) (f : GetServerListFilter) :
    List Server :=
  sortSliceGo serverLt
    (if f.NoHidden || f.NoDefaultServers then
      removeFilteredServers servers (buildRemoveAddrsBreak c.config f servers)
    else servers)

theorem mem_removeStepBreak (cfg : Config) (f : GetServerListFilter) (acc : List String)
    (s : Server) (A : String) :
    A ∈ removeStepBreak cfg f acc s
      ↔ A ∈ acc ∨ (A = s.Addr ∧ serverMatchesCustom cfg f s = true) := by
  unfold removeStepBreak serverMatchesCustom
  by_cases h1 : (f.NoHidden && strContainsSub s.GameType "hidden") = true
  · simp [h1, List.mem_append]
  · rw [if_neg h1]
    by_cases h2 : (f.NoDefaultServers && cfg.DefaultServerNames.any (fun n => s.Name == n)) = true
    · simp [h1, h2, List.mem_append]
    · simp [h1, h2]

theorem mem_foldl_removeStepBreak (cfg : Config) (f : GetServerListFilter)
    (servers : List Server) (acc : List String) (A : String) :
    A ∈ servers.foldl (removeStepBreak cfg f) acc
      ↔ A ∈ acc ∨ ∃ s, s ∈ servers ∧ s.Addr = A ∧ serverMatchesCustom cfg f s = true := by
  induction servers generalizing acc with
  | nil => simp
  | cons s rest ih =>
    simp only [List.foldl_cons, ih, mem_removeStepBreak, List.mem_cons]
    constructor
    · rintro ((h | ⟨hA, hm⟩) | ⟨t, ht, hA, hm⟩)
      · exact Or.inl h
      · exact Or.inr ⟨s, Or.inl rfl, hA.symm, hm⟩
      · exact Or.inr ⟨t, Or.inr ht, hA, hm⟩
    · rintro (h | ⟨t, hts, hA, hm⟩)
      · exact Or.inl (Or.inl h)
      · rcases hts with rfl | ht
        · exact Or.inl (Or.inr ⟨hA.symm, hm⟩)
        · exact Or.inr ⟨t, ht, hA, hm⟩

theorem mem_buildRemoveAddrsBreak (cfg : Config) (f : GetServerListFilter)
    (servers : List Server) (A : String) :
    A ∈ buildRemoveAddrsBreak cfg f servers
      ↔ ∃ s, s ∈ servers ∧ s.Addr = A ∧ serverMatchesCustom cfg f s = true := by
  unfold buildRemoveAddrsBreak
  rw [mem_foldl_removeStepBreak]
  simp

theorem contains_buildRemoveAddrsBreak (cfg : Config) (f : GetServerListFilter)
    (servers : List Server) (A : String) :
    (buildRemoveAddrsBreak cfg f servers).contains A
      = servers.any (fun t => (t.Addr == A) && serverMatchesCustom cfg f t) := by
  rw [Bool.eq_iff_iff]
  simp only [List.elem_iff, mem_buildRemoveAddrsBreak, List.any_eq_true,
    Bool.and_eq_true, beq_iff_eq]

/-- C7: the implemented custom-filter pass, whose inner default-name
loop lacks an early exit, builds an exclusion set with the same members
as the early-exit variant and produces the same final server list. -/
theorem C7_break_equivalence (c : Client) (servers : List Server) (f : GetServerListFilter) :
    (∀ A, A ∈ buildRemoveAddrs c.config f servers
        ↔ A ∈ buildRemoveAddrsBreak c.config f servers)
    ∧ c.filterServers servers f = filterServersBreak c servers f := by
  constructor
  · intro A
    rw [mem_buildRemoveAddrs, mem_buildRemoveAddrsBreak]
  · unfold Client.filterServers filterServersBreak customFilterStep
    by_cases h : (f.NoHidden || f.NoDefaultServers) = true
    · rw [if_pos h, if_pos h, removeFilteredServers_eq_filter, removeFilteredServers_eq_filter]
      congr 1
      apply List.filter_congr
      intro s _
      rw [contains_buildRemoveAddrs, contains_buildRemoveAddrsBreak]
    · rw [if_neg h, if_neg h]

/-- A transport whose every response is HTTP 200 with body "body". -/
def trOK : String → DoRes :=
  fun _ => { res := some { StatusCode := 200, Status := "200 OK", Body := Except.ok "body" } }

/-- A Project Zomboid-style configuration as in the repository's tests. -/
def pzConfig : Config :=
  { Key := "k", URL := "http://u", DefaultServerNames := ["My PZ Server"] }

/-- The five-server corpus of claim C2: player counts 2, 0, 13, 9, 2,
with the zero-count server named like a configured default server. -/
def fiveServers : List Server :=
  [ { Addr := "a", Players := 2 },
    { Addr := "b", Name := "My PZ Server", Players := 0 },
    { Addr := "c", Players := 13 },
    { Addr := "d", Players := 9 },
    { Addr := "e", Players := 2 } ]

/-- Thirteen servers: twelve tied at 1 player (addresses s0 … s11 in
input order) and one with 9 players; long enough that `sort.Slice`
leaves its insertion-sort regime. -/
def thirteenServers : List Server :=
  [ { Addr := "s0", Players := 1 },
    { Addr := "s1", Players := 1 },
    { Addr := "s2", Players := 1 },
    { Addr := "s3", Players := 1 },
    { Addr := "s4", Players := 1 },
    { Addr := "s5", Players := 1 },
    { Addr := "s6", Players := 1 },
    { Addr := "s7", Players := 1 },
    { Addr := "s8", Players := 1 },
    { Addr := "s9", Players := 1 },
    { Addr := "s10", Players := 1 },
    { Addr := "s11", Players := 1 },
    { Addr := "s12", Players := 9 } ]

/-- Addresses of a successful server-list result. -/
def addrsOf : Except SWError (List Server) → List String
  | Except.ok l => l.map (fun s => s.Addr)
  | Except.error _ => []

/-- C2 (code bug): evaluating the translated code. First conjunct: the
claim's five-server example does hold — with counts 2, 0, 13, 9, 2, the
zero-count server named like a configured default and
`NoDefaultServers` set, `GetServerList` returns counts 13, 9, 2, 2 with
the two tied servers in input order (ranges of at most 12 elements are
insertion-sorted, which is stable).  Second and third conjuncts: on
thirteen servers — twelve tied at 1 player (s0 … s11 in input order)
plus one at 9 players — the quicksort partition of `sort.Slice`
reorders the tied servers, so the result is not the stable order
s12, s0, s1, …, s11 that the claim requires for every input. -/
theorem C2_sort_not_stable :
    addrsOf ((Client.mk pzConfig).GetServerList { NoDefaultServers := true } trOK
        (fun _ => Except.ok { response := { servers := fiveServers } }))
      = ["c", "d", "a", "e"]
    ∧ addrsOf ((Client.mk pzConfig).GetServerList {} trOK
        (fun _ => Except.ok { response := { servers := thirteenServers } }))
      = ["s12", "s6", "s2", "s3", "s4", "s5", "s0", "s7", "s8", "s9", "s10", "s11", "s1"]
    ∧ (["s12", "s6", "s2", "s3", "s4", "s5", "s0", "s7", "s8", "s9", "s10", "s11", "s1"]
        ≠ ["s12", "s0", "s1", "s2", "s3", "s4", "s5", "s6", "s7", "s8", "s9", "s10", "s11"]) :=
  ⟨by decide, by decide, by decide⟩

/-- C1 (amended): the encoding begins with the mandatory
`\appid\<AppID>` segment and equals the fixed-order concatenation of
one segment per set field among the sixteen optional fields the encoder
supports (booleans as `\key\1`, `NoPassword` as `\password\0`, strings
when non-empty, `NameMatch` wrapped in `*`, `GameTypeTags` joined with
`;`, `GameDataTags` and `GameDataOrTags` with `,`), with the synthetic
fields, `Limit`, and the upstream fields `NotOr`, `NotAnd`,
`VersionMatch`, `CollapseAddrHash` and `GameAddr` never encoded; the
encoding is pure and deterministic. -/
theorem C1_encoder_fixed_order (g : GetServerListFilter) :
    g.toQueryString = specQuery g
    ∧ g.toQueryString = keyVal "appid" (toString g.AppID) ++ specQueryTail g
    ∧ (∀ g2 : GetServerListFilter, g = g2 → g.toQueryString = g2.toQueryString) := by
  refine ⟨toQueryString_eq_specQuery g, ?_, ?_⟩
  · rw [toQueryString_eq_specQuery g, specQuery_head_tail]
  · intro g2 h
    rw [h]

/-- C1 witness: the determinism hypothesis discharged at a concrete
filter. -/
theorem C1_encoder_fixed_order_witness :
    ({ AppID := 108600, Dedicated := true } : GetServerListFilter).toQueryString
      = ({ AppID := 108600, Dedicated := true } : GetServerListFilter).toQueryString :=
  (C1_encoder_fixed_order { AppID := 108600, Dedicated := true }).2.2
    { AppID := 108600, Dedicated := true } rfl

/-- C1 counterexample: `VersionMatch` is an optional upstream field
(protocol segment `\version_match\[version]`), it is set and non-empty,
yet the encoding contains no segment for it — so the claim's "one
segment for each optional upstream field that is set" fails as stated. -/
theorem C1_counterexample :
    ({ AppID := 1, VersionMatch := "1.0" } : GetServerListFilter).toQueryString = "\\appid\\1"
    ∧ ({ AppID := 1, VersionMatch := "1.0" } : GetServerListFilter).VersionMatch ≠ ""
    ∧ strContainsSub
        ({ AppID := 1, VersionMatch := "1.0" } : GetServerListFilter).toQueryString
        "version_match" = false :=
  ⟨by decide, by decide, by decide⟩

/-- C4 (amended): `Validate` fails with the required-parameter error
identifying "appid" exactly when the application identifier is zero;
but `GetServerList` performs no such validation — for every enabled
client it consults the transport at the constructed URL and processes
the outcome, whatever the filter's `AppID`. -/
theorem C4_validate_appid (f : GetServerListFilter) :
    (f.Validate = some (SWError.requiredParam "appid") ↔ f.AppID = 0)
    ∧ ∀ (c : Client) (tr : String → DoRes) (um : String → Except String GetServerListResponse),
        c.config.Disabled = false →
        c.GetServerList f tr um = serverListProcess c f (tr (serverListURI c.config f)) um := by
  constructor
  · unfold GetServerListFilter.Validate
    split <;> simp_all
  · intro c tr um h
    exact GetServerList_enabled c f tr um h

/-- C4 witness: the `GetServerList` conjunct discharged at a concrete
enabled client and a filter with `AppID = 0`. -/
theorem C4_validate_appid_witness :
    (Client.mk pzConfig).GetServerList { AppID := 0 } trOK (fun _ => Except.ok {})
      = serverListProcess (Client.mk pzConfig) { AppID := 0 }
          (trOK (serverListURI pzConfig { AppID := 0 })) (fun _ => Except.ok {}) :=
  (C4_validate_appid { AppID := 0 }).2 (Client.mk pzConfig) trOK (fun _ => Except.ok {}) rfl

/-- C4 counterexample: with `AppID = 0` and an enabled client,
`GetServerList` does not fail with the required-parameter error before
network I/O — it issues the request and here returns an empty list. -/
theorem C4_counterexample :
    (Client.mk pzConfig).GetServerList { AppID := 0 } trOK (fun _ => Except.ok {})
      = Except.ok []
    ∧ (Except.ok [] : Except SWError (List Server))
        ≠ Except.error (SWError.requiredParam "appid") :=
  ⟨by decide, by decide⟩

/-- C5 (amended): the shared request execution fails with the
wrong-status-code error, carrying the numeric code and the status text,
exactly when the HTTP status differs from 200; a `Do` error propagates
verbatim; a missing response object yields the distinct empty-response
error; a 200 response yields its body, or propagates the body-read
error. -/
theorem C5_send_request_cases (d : DoRes) :
    (∀ e, d.err = some e → sendRequest d = Except.error (SWError.other e))
    ∧ (d.err = none → d.res = none → sendRequest d = Except.error SWError.emptyResponse)
    ∧ (∀ r, d.err = none → d.res = some r → r.StatusCode ≠ 200 →
        sendRequest d = Except.error (SWError.wrongStatusCode r.StatusCode r.Status))
    ∧ (∀ r b, d.err = none → d.res = some r → r.StatusCode = 200 → r.Body = Except.ok b →
        sendRequest d = Except.ok b)
    ∧ (∀ r e, d.err = none → d.res = some r → r.StatusCode = 200 → r.Body = Except.error e →
        sendRequest d = Except.error (SWError.other e))
    ∧ (∀ code st, sendRequest d = Except.error (SWError.wrongStatusCode code st) →
        ∃ r, d.err = none ∧ d.res = some r ∧ r.StatusCode = code ∧ r.Status = st
          ∧ code ≠ 200) := by
  obtain ⟨res, err⟩ := d
  unfold sendRequest
  cases err with
  | some e => simp
  | none =>
    cases res with
    | none => simp
    | some r =>
      simp only
      by_cases hsc : r.StatusCode = 200
      · rw [if_neg (by simp [hsc])]
        cases hb : r.Body with
        | error e =>
          simp [hsc, hb]
          constructor
          · rintro r2 b rfl _ hok
            rw [hb] at hok
            exact Except.noConfusion hok
          · rintro r2 e2 rfl _ he2
            rw [hb] at he2
            exact Except.error.inj he2
        | ok b =>
          simp [hsc, hb]
          constructor
          · rintro r2 b2 rfl _ hok2
            rw [hb] at hok2
            exact Except.ok.inj hok2
          · rintro r2 e rfl _ he
            rw [hb] at he
            exact Except.noConfusion he
      · rw [if_pos (by simp [hsc])]
        simp [hsc]
        constructor
        · rintro r2 b rfl h200 _
          exact hsc h200
        · rintro r2 e rfl h200 _
          exact hsc h200

/-- C5 witness: the success case discharged at a concrete 200 response. -/
theorem C5_send_request_cases_witness :
    sendRequest { res := some { StatusCode := 200, Status := "200 OK", Body := Except.ok "b" } }
      = Except.ok "b" :=
  (C5_send_request_cases
      { res := some { StatusCode := 200, Status := "200 OK", Body := Except.ok "b" } }).2.2.2.1
    { StatusCode := 200, Status := "200 OK", Body := Except.ok "b" } "b" rfl rfl rfl rfl

/-- C5 counterexample: HTTP 201 is a 2xx status, yet the code fails
with the wrong-status-code error — the check is `!= 200`, not
"not 2xx". -/
theorem C5_counterexample :
    sendRequest { res := some { StatusCode := 201, Status := "201 Created", Body := Except.ok "b" } }
      = Except.error (SWError.wrongStatusCode 201 "201 Created")
    ∧ 200 ≤ 201 ∧ 201 < 300 :=
  ⟨by decide, by decide, by decide⟩

/-- C6: a disabled client returns an empty ban list and an empty server
list with no error, for every input and every transport and decoder —
in particular the result never depends on the transport, so no HTTP
request is observable. -/
theorem C6_disabled_short_circuit (c : Client) (steamIDs : List String)
    (f : GetServerListFilter) (tr1 tr2 : String → DoRes)
    (um1 : String → Except String GetPlayerBansResponse)
    (um2 : String → Except String GetServerListResponse)
    (h : c.config.Disabled = true) :
    c.GetPlayerBans steamIDs tr1 um1 = Except.ok []
    ∧ c.GetServerList f tr2 um2 = Except.ok [] := by
  unfold Client.GetPlayerBans Client.GetServerList
  rw [h]
  simp

/-- C6 witness: a disabled client with a transport that only reports
failure still returns empty successes. -/
theorem C6_disabled_short_circuit_witness :
    (Client.mk { Disabled := true }).GetPlayerBans ["7656119"]
        (fun _ => { err := some "contacted" }) (fun _ => Except.error "bad")
      = Except.ok []
    ∧ (Client.mk { Disabled := true }).GetServerList {}
        (fun _ => { err := some "contacted" }) (fun _ => Except.error "bad")
      = Except.ok [] :=
  C6_disabled_short_circuit (Client.mk { Disabled := true }) ["7656119"] {}
    (fun _ => { err := some "contacted" }) (fun _ => { err := some "contacted" })
    (fun _ => Except.error "bad") (fun _ => Except.error "bad") rfl

/-- C8: for an enabled client, `GetServerList` consults the transport
at the URL whose limit parameter carries exactly the effective limit —
the filter's own `Limit` when non-zero, otherwise the library default
50000. -/
theorem C8_effective_limit (c : Client) (f : GetServerListFilter) (tr : String → DoRes)
    (um : String → Except String GetServerListResponse) (h : c.config.Disabled = false) :
    c.GetServerList f tr um = serverListProcess c f (tr (serverListURI c.config f)) um
    ∧ serverListURI c.config f
      = c.config.URL ++ ("/IGameServersService/GetServerList/v1?key=" ++ c.config.Key
          ++ ("&limit=" ++ toString (effectiveLimit f) ++ ("&filter=" ++ f.toQueryString)))
    ∧ effectiveLimit f = (if f.Limit = 0 then DefaultLimit else f.Limit)
    ∧ DefaultLimit = 50000 := by
  refine ⟨GetServerList_enabled c f tr um h, ?_, rfl, rfl⟩
  unfold serverListURI getServerListPath
  simp [String.append_assoc]

/-- C8 witness: discharged at a concrete enabled client and a filter
with `Limit = 0`. -/
theorem C8_effective_limit_witness :
    (Client.mk pzConfig).GetServerList {} trOK (fun _ => Except.ok {})
      = serverListProcess (Client.mk pzConfig) {} (trOK (serverListURI pzConfig {}))
          (fun _ => Except.ok {})
    ∧ effectiveLimit {} = 50000 :=
  ⟨(C8_effective_limit (Client.mk pzConfig) {} trOK (fun _ => Except.ok {}) rfl).1,
    ((C8_effective_limit (Client.mk pzConfig) {} trOK (fun _ => Except.ok {}) rfl).2.2.1).trans
      (by decide)⟩

theorem SetDefaults_explicit (cfg : Config) :
    cfg.SetDefaults =
      { Disabled := cfg.Disabled
        Key := cfg.Key
        URL := if cfg.URL = "" then DefaultSteamURL else cfg.URL
        Timeout := if cfg.Timeout = 0 then DefaultTimeout else cfg.Timeout
        Transport :=
          { Dialer :=
              { Timeout := if cfg.Transport.Dialer.Timeout = 0 then DefaultDialerTimeout
                  else cfg.Transport.Dialer.Timeout
                Deadline := cfg.Transport.Dialer.Deadline
                FallbackDelay := cfg.Transport.Dialer.FallbackDelay
                KeepAlive := cfg.Transport.Dialer.KeepAlive }
            TLSHandshakeTimeout := if cfg.Transport.TLSHandshakeTimeout = 0 then
                DefaultTLSHandshakeTimeout
              else cfg.Transport.TLSHandshakeTimeout }
        Limit := if cfg.Limit = 0 then DefaultLimit else cfg.Limit
        DefaultServerNames := cfg.DefaultServerNames } := by
  obtain ⟨dis, key, url, tmo, ⟨⟨dt, dd, dfb, dka⟩, tls⟩, lim, names⟩ := cfg
  by_cases h1 : url = "" <;> by_cases h2 : tmo = 0 <;> by_cases h3 : tls = 0 <;>
    by_cases h4 : dt = 0 <;> by_cases h5 : lim = 0 <;>
      simp [Config.SetDefaults, h1, h2, h3, h4, h5]

/-- C9: `SetDefaults` — run once inside `NewClient` — assigns the
documented default to each of `URL`, `Timeout`,
`Transport.TLSHandshakeTimeout`, `Transport.Dialer.Timeout` and `Limit`
exactly when that field holds its zero value, leaves it unchanged
otherwise, and touches no other field; the operations of the model are
pure functions of the configuration, which is never written after
construction. -/
theorem C9_set_defaults (cfg : Config) :
    (cfg.SetDefaults.URL = if cfg.URL = "" then DefaultSteamURL else cfg.URL)
    ∧ (cfg.SetDefaults.Timeout = if cfg.Timeout = 0 then DefaultTimeout else cfg.Timeout)
    ∧ (cfg.SetDefaults.Transport.TLSHandshakeTimeout
        = if cfg.Transport.TLSHandshakeTimeout = 0 then DefaultTLSHandshakeTimeout
          else cfg.Transport.TLSHandshakeTimeout)
    ∧ (cfg.SetDefaults.Transport.Dialer.Timeout
        = if cfg.Transport.Dialer.Timeout = 0 then DefaultDialerTimeout
          else cfg.Transport.Dialer.Timeout)
    ∧ (cfg.SetDefaults.Limit = if cfg.Limit = 0 then DefaultLimit else cfg.Limit)
    ∧ cfg.SetDefaults.Disabled = cfg.Disabled
    ∧ cfg.SetDefaults.Key = cfg.Key
    ∧ cfg.SetDefaults.DefaultServerNames = cfg.DefaultServerNames
    ∧ cfg.SetDefaults.Transport.Dialer.Deadline = cfg.Transport.Dialer.Deadline
    ∧ cfg.SetDefaults.Transport.Dialer.FallbackDelay = cfg.Transport.Dialer.FallbackDelay
    ∧ cfg.SetDefaults.Transport.Dialer.KeepAlive = cfg.Transport.Dialer.KeepAlive
    ∧ (NewClient cfg).config = cfg.SetDefaults := by
  have hnc : (NewClient cfg).config = cfg.SetDefaults := rfl
  rw [SetDefaults_explicit]
  exact ⟨rfl, rfl, rfl, rfl, rfl, rfl, rfl, rfl, rfl, rfl, rfl,
    by rw [hnc, SetDefaults_explicit]⟩
